import Mathlib

/-
Verification of the ARTIQ inter-processor communication core against its
specification.  The Rust sources under artiq/firmware (mailbox.rs,
rpc_queue.rs, rpc_fifo.rs, eh_artiq.rs, session_proto.rs) are shallowly
embedded below:

* machine integers are `Nat` (the firmware targets a 32-bit core, so
  `usize::MAX` is `2 ^ 32 - 1`, and `as u32` casts are `% 2 ^ 32`);
* memory-mapped state is explicit record state threaded through the
  operations;
* Rust panics (failed `debug_assert!`, out-of-range slice indexing,
  `copy_from_slice` length mismatch, `Option::unwrap` on `None`,
  `Result::unwrap` on `Err`) are modelled by an `Option` result whose
  `none` value marks the panic; cache flushes are no-ops in this model.
-/

/-- usize::MAX on the 32-bit firmware target. -/
def USIZE_MAX : Nat := 2 ^ 32 - 1

/-- The value 2^32, used for `as u32` truncating casts. -/
def U32MOD : Nat := 2 ^ 32

namespace mailbox

/-- State of mailbox.rs: the single shared mailbox word (`*MAILBOX`) plus the
process-local shadow `LAST`. -/
structure MboxState where
  word : Nat
  last : Nat
deriving DecidableEq

/-- `send(data)`: `LAST = data; write_volatile(MAILBOX, data)`. -/
def send (data : Nat) (_st : MboxState) : MboxState :=
  { word := data, last := data }

/-- `acknowledged()`: `data == 0 || data != LAST`. -/
def acknowledged (st : MboxState) : Bool :=
  st.word == 0 || st.word != st.last

/-- `receive()`: returns 0 if the word equals `LAST`, otherwise the word
(the cache flush on the nonzero path has no observable effect here). -/
def receive (st : MboxState) : Nat :=
  if st.word = st.last then 0 else st.word

/-- `acknowledge()`: clears the mailbox word to 0, `LAST` untouched. -/
def acknowledge (st : MboxState) : MboxState :=
  { st with word := 0 }

/-- Operations that touch the shared mailbox word: the local side's
`send`/`receive`/`acknowledge`, plus an overwrite of the word by the peer
core (the peer's own `send` or `acknowledge` lands here as `peerWrite`). -/
inductive MOp where
  | send (v : Nat)
  | receiveOp
  | acknowledge
  | peerWrite (v : Nat)
deriving DecidableEq

/-- One step of the mailbox state under an operation.  `receive` has no
state effect (its cache flush is not modelled). -/
def step (st : MboxState) : MOp → MboxState
  | .send v => send v st
  | .receiveOp => st
  | .acknowledge => acknowledge st
  | .peerWrite v => { st with word := v }

/-- Run a sequence of mailbox operations. -/
def run (st : MboxState) (ops : List MOp) : MboxState :=
  ops.foldl step st

end mailbox

namespace eh_artiq

/-- eh_artiq.rs `StringBuffer`: a write cursor plus a 128-byte inline buffer
(the buffer is a list of byte values, length 128 in every state the code
constructs). -/
structure StringBuffer where
  pos : Nat
  buf : List Nat
deriving DecidableEq

/-- Overwrite `l[start .. start + vals.length)` with `vals`
(callers establish `start + vals.length <= l.length`). -/
def setRange (l : List Nat) (start : Nat) (vals : List Nat) : List Nat :=
  l.take start ++ vals ++ l.drop (start + vals.length)

/-- `StringBuffer::copy_str`: `len = min (input length) (buf.len()
saturating-sub pos)`; the slice `self.buf[pos .. pos+len]` panics (`none`)
when `pos + len` exceeds the buffer length, which happens exactly for the
out-of-range cursor `pos > 128`; otherwise the first `len` input bytes are
copied in and the cursor advances. -/
def copy_str (sb : StringBuffer) (s : List Nat) : Option StringBuffer :=
  let len := min s.length (sb.buf.length - sb.pos)
  if sb.buf.length < sb.pos + len then none
  else some { pos := sb.pos + len, buf := setRange sb.buf sb.pos (s.take len) }

/-- `StringBuffer::new()`: zeroed 128-byte buffer, cursor 0. -/
def new : StringBuffer :=
  { pos := 0, buf := List.replicate 128 0 }

/-- `StringBuffer::from_str`: `copy_str` into a fresh buffer (never panics
because the fresh cursor is 0, hence the `Option` is always `some`). -/
def from_str (s : List Nat) : Option StringBuffer :=
  copy_str new s

/-- Little-endian bytes of a `u32`, modelling `transmute::<u32, [u8; 4]>`
(the transmute pair used by `from_host` and the serializer is inverse on
either endianness; little-endian is fixed here). -/
def leBytes4 (k : Nat) : List Nat :=
  [k % 256, k / 256 % 256, k / 65536 % 256, k / 16777216 % 256]

/-- Reassemble a `u32` from 4 bytes, modelling `transmute::<[u8; 4], u32>`. -/
def leWord (b0 b1 b2 b3 : Nat) : Nat :=
  b0 + 256 * b1 + 65536 * b2 + 16777216 * b3

/-- `StringBuffer::from_host(message_id)`: cursor set to `usize::MAX`, the
first 4 bytes hold the transmuted host key, the rest is zero. -/
def from_host (message_id : Nat) : StringBuffer :=
  { pos := USIZE_MAX, buf := setRange (List.replicate 128 0) 0 (leBytes4 message_id) }

/-- `StringBuffer::is_host()`: `pos >= 128`. -/
def is_host (sb : StringBuffer) : Bool :=
  128 ≤ sb.pos

/-- eh_artiq.rs `StackPointerBacktrace`. -/
structure StackPointerBacktrace where
  stack_pointer : Nat
  initial_backtrace_size : Nat
  current_backtrace_size : Nat
deriving DecidableEq

/-- A `CSlice<u8>` field of an `Exception`: the raw pointer, the length
sentinel, and the bytes `as_ref()` yields when `len != usize::MAX`. -/
structure ExcSlice where
  ptr : Nat
  len : Nat
  bytes : List Nat
deriving DecidableEq

/-- eh_artiq.rs `Exception`. -/
structure Exception where
  id : Nat
  file : ExcSlice
  line : Nat
  column : Nat
  function : ExcSlice
  message : StringBuffer
deriving DecidableEq

end eh_artiq

namespace session_proto

open eh_artiq

/-- One primitive call to the byte-stream writer collaborator (§6 of the
spec): `write_all`/`write` of raw bytes, `write_u8`, `write_u32`, or a
length-prefixed `write_string`.  `Reply::write_to` is modelled as the trace
of these calls. -/
inductive WItem where
  | u8 (n : Nat)
  | u32 (n : Nat)
  | bytes (l : List Nat)
  | str (l : List Nat)
deriving DecidableEq

/-- ASCII byte values of a literal string. -/
def asciiBytes (s : String) : List Nat :=
  s.toList.map Char.toNat

/-- A UTF-8 continuation byte (0x80..=0xBF). -/
def contByte (b : Nat) : Bool :=
  128 ≤ b && b ≤ 191

/-- Validity of a byte sequence as UTF-8, as checked by Rust
`core::str::from_utf8` (RFC 3629: no overlong forms, no surrogates,
max U+10FFFF). -/
def utf8Valid : List Nat → Bool
  | [] => true
  | b :: rest =>
    if b ≤ 127 then utf8Valid rest
    else if 194 ≤ b && b ≤ 223 then
      match rest with
      | c1 :: r => contByte c1 && utf8Valid r
      | [] => false
    else if b = 224 then
      match rest with
      | c1 :: c2 :: r => (160 ≤ c1 && c1 ≤ 191) && contByte c2 && utf8Valid r
      | _ => false
    else if (225 ≤ b && b ≤ 236) || b = 238 || b = 239 then
      match rest with
      | c1 :: c2 :: r => contByte c1 && contByte c2 && utf8Valid r
      | _ => false
    else if b = 237 then
      match rest with
      | c1 :: c2 :: r => (128 ≤ c1 && c1 ≤ 159) && contByte c2 && utf8Valid r
      | _ => false
    else if b = 240 then
      match rest with
      | c1 :: c2 :: c3 :: r =>
        (144 ≤ c1 && c1 ≤ 191) && contByte c2 && contByte c3 && utf8Valid r
      | _ => false
    else if 241 ≤ b && b ≤ 243 then
      match rest with
      | c1 :: c2 :: c3 :: r => contByte c1 && contByte c2 && contByte c3 && utf8Valid r
      | _ => false
    else if b = 244 then
      match rest with
      | c1 :: c2 :: c3 :: r =>
        (128 ≤ c1 && c1 ≤ 143) && contByte c2 && contByte c3 && utf8Valid r
      | _ => false
    else false

/-- `StringBuffer::as_str` as a byte sequence: the literal `<host string>`
when the cursor is out of range, otherwise the buffered bytes when they are
valid UTF-8, otherwise the literal `<invalid UTF-8>` (`unwrap_or`). -/
def as_str_bytes (sb : StringBuffer) : List Nat :=
  if sb.buf.length ≤ sb.pos then asciiBytes "<host string>"
  else if utf8Valid (sb.buf.take sb.pos) then sb.buf.take sb.pos
  else asciiBytes "<invalid UTF-8>"

/-- session_proto.rs `write_exception_string`: a host-resident span
(length sentinel `usize::MAX`) is written as `0xFFFFFFFF` then the pointer
value as a `u32` host key; otherwise the bytes go through
`from_utf8(..).unwrap()` — a panic (`none`) on invalid UTF-8 — and are
written as a length-prefixed string. -/
def write_exception_string (s : ExcSlice) : Option (List WItem) :=
  if s.len = USIZE_MAX then some [.u32 USIZE_MAX, .u32 (s.ptr % U32MOD)]
  else if utf8Valid s.bytes then some [.str s.bytes]
  else none

/-- session_proto.rs `write_exception_stringbuffer`: a host buffer
(`is_host()`) is written as `0xFFFFFFFF` then the `u32` transmuted from its
first 4 bytes; otherwise `as_str()` is written as a length-prefixed string
(the `try_into().expect` on `buf[0..4]` cannot fail, the buffer holding
128 bytes). -/
def write_exception_stringbuffer (sb : StringBuffer) : List WItem :=
  if is_host sb then
    [.u32 USIZE_MAX,
     .u32 (leWord (sb.buf.getD 0 0) (sb.buf.getD 1 0) (sb.buf.getD 2 0) (sb.buf.getD 3 0))]
  else [.str (as_str_bytes sb)]

/-- session_proto.rs `Reply`. -/
inductive Reply where
  | systemInfo (ident : List Nat) (finished_cleanly : Bool)
  | loadCompleted
  | loadFailed (reason : List Nat)
  | kernelFinished (async_errors : Nat)
  | kernelStartupFailed
  | kernelException (exceptions : List (Option Exception))
      (stack_pointers : List StackPointerBacktrace)
      (backtrace : List (Nat × Nat)) (async_errors : Nat)
  | rpcRequest (async : Bool)
  | clockFailure
deriving DecidableEq

/-- The per-exception loop of the `KernelException` arm: each entry is
`unwrap`ped (`none` element means panic, hence `none` overall), then id,
message, file, line, column, function are written. -/
def writeExceptions : List (Option Exception) → Option (List WItem)
  | [] => some []
  | none :: _ => none
  | some e :: rest => do
    let fileI ← write_exception_string e.file
    let fnI ← write_exception_string e.function
    let tail ← writeExceptions rest
    pure ([WItem.u32 (e.id % U32MOD)] ++ write_exception_stringbuffer e.message
      ++ fileI ++ [WItem.u32 e.line, WItem.u32 e.column] ++ fnI ++ tail)

/-- `write_sync`: the 4-byte resynchronization marker 0x5a 0x5a 0x5a 0x5a. -/
def syncItems : List WItem := [.bytes [90, 90, 90, 90]]

/-- session_proto.rs `Reply::write_to` as the trace of writer calls it
makes; `none` marks a panic. -/
def Reply.write_to : Reply → Option (List WItem)
  | .systemInfo ident fc =>
    some (syncItems ++ [.u8 2, .bytes (asciiBytes "AROR"), .str ident,
      .u8 (if fc then 1 else 0)])
  | .loadCompleted => some (syncItems ++ [.u8 5])
  | .loadFailed reason => some (syncItems ++ [.u8 6, .str reason])
  | .kernelFinished ae => some (syncItems ++ [.u8 7, .u8 ae])
  | .kernelStartupFailed => some (syncItems ++ [.u8 8])
  | .kernelException exc sps bt ae => do
    let excI ← writeExceptions exc
    pure (syncItems ++ [WItem.u8 9, WItem.u32 (exc.length % U32MOD)] ++ excI
      ++ sps.flatMap (fun sp => [WItem.u32 (sp.stack_pointer % U32MOD),
           WItem.u32 (sp.initial_backtrace_size % U32MOD),
           WItem.u32 (sp.current_backtrace_size % U32MOD)])
      ++ [WItem.u32 (bt.length % U32MOD)]
      ++ bt.flatMap (fun p => [WItem.u32 (p.1 % U32MOD), WItem.u32 (p.2 % U32MOD)])
      ++ [WItem.u8 ae])
  | .rpcRequest a => some (syncItems ++ [.u8 10, .u8 (if a then 1 else 0)])
  | .clockFailure => some (syncItems ++ [.u8 15])

/-- The stack-pointer-backtrace triples as writer items (three `u32`s per
entry, `usize` fields cast `as u32`). -/
def specTriples (sps : List StackPointerBacktrace) : List WItem :=
  sps.flatMap (fun sp => [WItem.u32 (sp.stack_pointer % U32MOD),
    WItem.u32 (sp.initial_backtrace_size % U32MOD),
    WItem.u32 (sp.current_backtrace_size % U32MOD)])

/-- The (address, stack-pointer) pairs as writer items (two `u32`s per
entry). -/
def specPairs (bt : List (Nat × Nat)) : List WItem :=
  bt.flatMap (fun p => [WItem.u32 (p.1 % U32MOD), WItem.u32 (p.2 % U32MOD)])

/-- Modelled from the spec sentence of claim C1: a `KernelException` reply
serialized as the sync marker, tag byte 9, the count-prefixed exception
array, then a COUNT-PREFIXED array of stack-pointer-backtrace triples, then
a count-prefixed array of (address, stack-pointer) pairs, then the
async-error count byte. -/
def claimedKernelExceptionItems (exc : List (Option Exception))
    (excI : List WItem) (sps : List StackPointerBacktrace)
    (bt : List (Nat × Nat)) (ae : Nat) : List WItem :=
  syncItems ++ [WItem.u8 9, WItem.u32 (exc.length % U32MOD)] ++ excI
    ++ [WItem.u32 (sps.length % U32MOD)] ++ specTriples sps
    ++ [WItem.u32 (bt.length % U32MOD)] ++ specPairs bt
    ++ [WItem.u8 ae]

/-- The amended layout (what the code actually emits): as in the claim but
with NO element count before the stack-pointer-backtrace triples. -/
def actualKernelExceptionItems (exc : List (Option Exception))
    (excI : List WItem) (sps : List StackPointerBacktrace)
    (bt : List (Nat × Nat)) (ae : Nat) : List WItem :=
  syncItems ++ [WItem.u8 9, WItem.u32 (exc.length % U32MOD)] ++ excI
    ++ specTriples sps
    ++ [WItem.u32 (bt.length % U32MOD)] ++ specPairs bt
    ++ [WItem.u8 ae]

/-- A file/function span serializes without panicking: it is host-resident
or holds valid UTF-8. -/
def spanOk (s : ExcSlice) : Prop :=
  s.len = USIZE_MAX ∨ utf8Valid s.bytes = true

/-- session_proto.rs `read_sync` sync-array update: byte `b` is stored at
slot `i % 4` of the 4-byte window. -/
def updSync : Nat × Nat × Nat × Nat → Nat → Nat → Nat × Nat × Nat × Nat
  | (s0, s1, s2, s3), i, b =>
    match i % 4 with
    | 0 => (b, s1, s2, s3)
    | 1 => (s0, b, s2, s3)
    | 2 => (s0, s1, b, s3)
    | _ => (s0, s1, s2, b)

/-- Loop of `read_sync`: read bytes into `sync[i % 4]` until the window
equals `[0x5a; 4]`; `none` when the stream is exhausted first
(`read_u8` fails). -/
def readSyncAux : Nat × Nat × Nat × Nat → Nat → List Nat → Option (List Nat)
  | _, _, [] => none
  | s, i, b :: rest =>
    let t := updSync s i b
    if t = (90, 90, 90, 90) then some rest else readSyncAux t (i + 1) rest

/-- session_proto.rs `read_sync` on a byte stream: returns the unread
remainder of the stream on success. -/
def read_sync (l : List Nat) : Option (List Nat) :=
  readSyncAux (0, 0, 0, 0) 0 l

/-- Equivalent run-length machine for `read_sync`: `t` counts the current
run of consecutive 0x5a bytes; the scan stops when the run reaches 4. -/
def syncRun : Nat → List Nat → Option (List Nat)
  | _, [] => none
  | t, b :: rest =>
    let u := if b = 90 then t + 1 else 0
    if 4 ≤ u then some rest else syncRun u rest

/-- Run-length of 0x5a bytes at the end of `g`, entering with run `t`. -/
def trailRun : Nat → List Nat → Nat
  | t, [] => t
  | t, b :: g => trailRun (if b = 90 then t + 1 else 0) g

/-- Scanning `g` (entering with run `t`) never accumulates four consecutive
0x5a bytes, i.e. `read_sync` cannot stop inside `g`. -/
def noStop : Nat → List Nat → Bool
  | _, [] => true
  | t, b :: g =>
    let u := if b = 90 then t + 1 else 0
    decide (u < 4) && noStop u g

/-- Slot `j % 4`-style access into the 4-byte sync window. -/
def slot : Nat × Nat × Nat × Nat → Nat → Nat
  | (s0, _, _, _), 0 => s0
  | (_, s1, _, _), 1 => s1
  | (_, _, s2, _), 2 => s2
  | (_, _, _, s3), _ => s3

/-- Invariant tying the sync window of `readSyncAux` at position `i` to the
current run `t` of trailing 0x5a bytes: the last `min t 4` bytes (slots
`(i + 4 - d) % 4`) are 0x5a, and when `t < 4` the byte just before the run
(or an initial zero slot) is not 0x5a. -/
def SyncInv (s : Nat × Nat × Nat × Nat) (i t : Nat) : Prop :=
  t ≤ i ∧
  (∀ d, 1 ≤ d → d ≤ min t 4 → slot s ((i + 4 - d) % 4) = 90) ∧
  (t < 4 → slot s ((i + 4 - (t + 1)) % 4) ≠ 90)

end session_proto

namespace rpc_queue

def QUEUE_BEGIN : Nat := 0x44000000

def QUEUE_END : Nat := 0x44ffff80

def QUEUE_CHUNK : Nat := 0x1000

/-- Number of chunk-aligned slot addresses in `[QUEUE_BEGIN, QUEUE_END)`
(the ring's capacity in chunks). -/
def capacityChunks : Nat := (QUEUE_END - QUEUE_BEGIN + (QUEUE_CHUNK - 1)) / QUEUE_CHUNK

/-- State of rpc_queue.rs: the two cursor words (`SEND_MAILBOX`,
`RECV_MAILBOX`) and the shared chunk memory. -/
structure RingState where
  send : Nat
  recv : Nat
  mem : Nat → Nat

/-- rpc_queue.rs `next(addr)`: the two `debug_assert!`s (chunk alignment
and range) are modelled as a guard (`none` = assertion panic); then the
address advances one chunk, wrapping to `QUEUE_BEGIN` at `QUEUE_END`. -/
def next (addr : Nat) : Option Nat :=
  if addr % QUEUE_CHUNK = 0 ∧ QUEUE_BEGIN ≤ addr ∧ addr < QUEUE_END then
    some (if QUEUE_END ≤ addr + QUEUE_CHUNK then QUEUE_BEGIN else addr + QUEUE_CHUNK)
  else none

/-- rpc_queue.rs `empty()`: `send == recv`. -/
def empty (st : RingState) : Bool :=
  st.send == st.recv

/-- rpc_queue.rs `full()`: `next(send) == recv` (inheriting `next`'s
assertion guard). -/
def full (st : RingState) : Option Bool :=
  (next st.send).map (fun a => a == st.recv)

/-- The `QUEUE_CHUNK` bytes at address `a`. -/
def readChunk (m : Nat → Nat) (a : Nat) : List Nat :=
  (List.range QUEUE_CHUNK).map (fun i => m (a + i))

/-- Overwrite the chunk at address `a` with `bs` (the encoder/decoder
mutates the exposed slice in place; real closures keep its length
`QUEUE_CHUNK`). -/
def writeChunk (m : Nat → Nat) (a : Nat) (bs : List Nat) : Nat → Nat :=
  fun x => if a ≤ x ∧ x < a + QUEUE_CHUNK then bs.getD (x - a) 0 else m x

/-- rpc_queue.rs `enqueue(f)`: `debug_assert!(!full())` is a guard; the
chunk at `send` is exposed to `f` (modelled as `f` receiving the chunk
bytes and returning its result together with the final slice contents,
which land in shared memory whether or not `f` succeeds); `send` advances
via `next` only on success. -/
def enqueue (f : List Nat → Except ε α × List Nat) (st : RingState) :
    Option (Except ε α × RingState) :=
  match full st with
  | none => none
  | some true => none
  | some false =>
    let p := f (readChunk st.mem st.send)
    let st1 : RingState := { st with mem := writeChunk st.mem st.send p.2 }
    match p.1 with
    | .error e => some (.error e, st1)
    | .ok x =>
      match next st1.send with
      | none => none
      | some ns => some (.ok x, { st1 with send := ns })

/-- rpc_queue.rs `dequeue(f)`: `debug_assert!(!empty())` is a guard; the
data-cache flush has no effect in this memory model; the chunk at `recv`
is exposed to `f`; `recv` advances via `next` only on success. -/
def dequeue (f : List Nat → Except ε α × List Nat) (st : RingState) :
    Option (Except ε α × RingState) :=
  if empty st then none
  else
    let p := f (readChunk st.mem st.recv)
    let st1 : RingState := { st with mem := writeChunk st.mem st.recv p.2 }
    match p.1 with
    | .error e => some (.error e, st1)
    | .ok x =>
      match next st1.recv with
      | none => none
      | some nr => some (.ok x, { st1 with recv := nr })

/-- rpc_queue.rs `init()`: both cursors at `QUEUE_BEGIN` (chunk memory left
as found; it starts as zeros here). -/
def initRing : RingState :=
  { send := QUEUE_BEGIN, recv := QUEUE_BEGIN, mem := fun _ => 0 }

/-- An encoder that always succeeds and leaves the chunk as is. -/
def okEnc : List Nat → Except Unit Nat × List Nat :=
  fun s => (.ok 0, s)

/-- `k` successive successful `enqueue`s with the trivial encoder. -/
def enqueueIter : Nat → RingState → Option RingState
  | 0, st => some st
  | k + 1, st =>
    match enqueueIter k st with
    | none => none
    | some st1 => (enqueue okEnc st1).map (fun p => p.2)

end rpc_queue

namespace rpc_fifo

def FIFO_BUFFER_SIZE : Nat := 4096

def FIFO_QUEUE_SIZE : Nat := 128

/-- State of rpc_fifo.rs: the slot buffers (`FIFO`, slot index then byte
offset), the parallel length table (`FIFO_LENS`), and the read/write
indices (`FIFO_READ`, `FIFO_WRITE`).  The spin-lock protects nothing in
this sequential model. -/
structure FifoState where
  bufs : Nat → Nat → Nat
  lens : Nat → Nat
  readIdx : Nat
  writeIdx : Nat

/-- rpc_fifo.rs errors. -/
inductive RpcFifoError where
  | unknown
  | fifoFull
  | emptyRead
  | dataOverflow
deriving DecidableEq

/-- rpc_fifo.rs `next(index)`: `(index + 1) % FIFO_QUEUE_SIZE`. -/
def nextIdx (index : Nat) : Nat :=
  (index + 1) % FIFO_QUEUE_SIZE

/-- rpc_fifo.rs `empty()`: `next(read) == write` and the slot at
`next(read)` has length 0. -/
def empty (st : FifoState) : Bool :=
  nextIdx st.readIdx == st.writeIdx && st.lens (nextIdx st.readIdx) == 0

/-- rpc_fifo.rs `full()`: `next(write) == read` and the slot at
`next(write)` has nonzero length. -/
def full (st : FifoState) : Bool :=
  nextIdx st.writeIdx == st.readIdx && st.lens (nextIdx st.writeIdx) != 0

/-- The state after `init()` on a fresh process: buffers and length table
zeroed, both atomic indices at their static initial value 0. -/
def initFifo : FifoState :=
  { bufs := fun _ _ => 0, lens := fun _ => 0, readIdx := 0, writeIdx := 0 }

/-- rpc_fifo.rs `push(data)`: oversize payloads are rejected with
`DataOverflow`; a full ring with `FifoFull`; otherwise the length is
recorded and `data` is copied into slot `next(write)` by
`copy_from_slice`, which panics (`none`) unless `data` fills the whole
4096-byte slot; on success the write index advances. -/
def push (data : List Nat) (st : FifoState) :
    Option (Except RpcFifoError Nat × FifoState) :=
  if FIFO_BUFFER_SIZE < data.length then some (.error .dataOverflow, st)
  else
    let n := nextIdx st.writeIdx
    if full st then some (.error .fifoFull, st)
    else if data.length ≠ FIFO_BUFFER_SIZE then none
    else
      some (.ok data.length,
        { st with
          lens := fun i => if i = n then data.length else st.lens i,
          bufs := fun i j => if i = n then data.getD j 0 else st.bufs i j,
          writeIdx := n })

/-- rpc_fifo.rs `pull(target)`: a target shorter than the slot size is
rejected with `DataOverflow`; an empty ring with `EmptyRead`; otherwise
the slot at `next(read)` is copied over `target` by `copy_from_slice`,
which panics (`none`) unless `target` is exactly 4096 bytes; the slot and
its length are zeroed, the read index advances, and the recorded logical
length is returned together with the new state and the overwritten
target. -/
def pull (target : List Nat) (st : FifoState) :
    Option (Except RpcFifoError Nat × FifoState × List Nat) :=
  if target.length < FIFO_BUFFER_SIZE then some (.error .dataOverflow, st, target)
  else
    let n := nextIdx st.readIdx
    if empty st then some (.error .emptyRead, st, target)
    else if target.length ≠ FIFO_BUFFER_SIZE then none
    else
      some (.ok (st.lens n),
        { st with
          bufs := fun i j => if i = n then 0 else st.bufs i j,
          lens := fun i => if i = n then 0 else st.lens i,
          readIdx := n },
        (List.range FIFO_BUFFER_SIZE).map (st.bufs n))

end rpc_fifo

section MailboxClaims

open mailbox

/-- Claim C5, counterexample: after `send 5` and a clearing of the mailbox
word, `receive()` returns 0 although the word (0) does not hold the last
value sent (5) — the claimed biconditional fails in the only-if
direction. -/
theorem c5_receive_zero_without_self_message :
    receive (run ⟨0, 0⟩ [.send 5, .acknowledge]) = 0 ∧
    (run (⟨0, 0⟩ : MboxState) [.send 5, .acknowledge]).word ≠
      (run (⟨0, 0⟩ : MboxState) [.send 5, .acknowledge]).last := by
  decide

/-- Claim C5 as amended: over every operation sequence, `receive()` returns
0 exactly when the mailbox word equals the value most recently sent by this
side OR the word is 0 (cleared); in every other case it returns the current
mailbox content. -/
theorem c5_receive_characterization (st0 : MboxState) (ops : List MOp) :
    (receive (run st0 ops) = 0 ↔
      ((run st0 ops).word = (run st0 ops).last ∨ (run st0 ops).word = 0)) ∧
    ((run st0 ops).word ≠ (run st0 ops).last →
      receive (run st0 ops) = (run st0 ops).word) := by
  by_cases h : (run st0 ops).word = (run st0 ops).last
  · simp [receive, h]
  · simp [receive, h]

end MailboxClaims

section FifoClaims

open rpc_fifo

/-- `pull` with a slot-sized target on the fresh FIFO: `empty()` is false
(`next(read) = 1 ≠ 0 = write`), so it returns `Ok` of the zero slot length
and advances the read index to 1. -/
theorem pull_on_fresh (tgt : List Nat) (h : tgt.length = 4096) :
    (pull tgt initFifo).map (fun r => (r.1, r.2.1.readIdx)) = some (Except.ok 0, 1) := by
  unfold pull
  rw [h]
  norm_num [empty, initFifo, nextIdx, FIFO_QUEUE_SIZE, FIFO_BUFFER_SIZE]

/-- Claim C2, failing run: on a freshly `init()`-ed FIFO (read = write = 0,
all lengths 0), `empty()` is false — `next(read) = 1 ≠ 0 = write` — so
`pull` does NOT return `EmptyRead`: it returns `Ok 0` and advances the read
index from 0 to 1, mutating the state. -/
theorem c2_pull_on_fresh_fifo_not_empty_read :
    (pull (List.replicate 4096 0) initFifo).map
        (fun r => (r.1, r.2.1.readIdx)) = some (Except.ok 0, 1) ∧
    initFifo.readIdx = 0 ∧ empty initFifo = false :=
  ⟨pull_on_fresh _ (List.length_replicate ..), rfl, rfl⟩

/-- An oversize payload is rejected with `DataOverflow` before anything is
written. -/
theorem push_oversize (d : List Nat) (h : d.length = 4097) :
    push d initFifo = some (.error .dataOverflow, initFifo) := by
  unfold push
  rw [h]
  norm_num [FIFO_BUFFER_SIZE]

/-- Claim C7, failing run: `push` of a 3-byte payload into a fresh,
non-full FIFO does not succeed — `copy_from_slice` into the whole
4096-byte slot panics on the length mismatch (modelled as `none`).  The
oversize half of the claim does hold: a 4097-byte payload is rejected with
`DataOverflow` and the state is untouched. -/
theorem c7_push_short_payload_panics :
    push [1, 2, 3] initFifo = none ∧
    push (List.replicate 4097 0) initFifo = some (.error .dataOverflow, initFifo) := by
  constructor
  · norm_num [push, full, nextIdx, initFifo, FIFO_QUEUE_SIZE, FIFO_BUFFER_SIZE]
  · exact push_oversize _ (List.length_replicate ..)

end FifoClaims

section RingQueueClaims

open rpc_queue

/-- After `k ≤ 4095` successful enqueues from the initial state, the send
cursor sits `k` chunks past `QUEUE_BEGIN` and the recv cursor has not
moved. -/
theorem enqueueIter_cursors (k : Nat) (hk : k ≤ 4095) :
    ∃ m, enqueueIter k initRing =
      some ⟨QUEUE_BEGIN + k * QUEUE_CHUNK, QUEUE_BEGIN, m⟩ := by
  induction k with
  | zero =>
    refine ⟨initRing.mem, ?_⟩
    simp [enqueueIter, initRing]
  | succ k ih =>
    obtain ⟨m, hm⟩ := ih (by omega)
    have hnext : next (QUEUE_BEGIN + k * QUEUE_CHUNK) =
        some (QUEUE_BEGIN + (k + 1) * QUEUE_CHUNK) := by
      unfold next
      rw [if_pos]
      · rw [if_neg]
        · congr 1
          simp [QUEUE_CHUNK]
          ring
        · simp only [QUEUE_BEGIN, QUEUE_END, QUEUE_CHUNK]
          omega
      · refine ⟨?_, ?_, ?_⟩
        · simp only [QUEUE_BEGIN, QUEUE_CHUNK]
          omega
        · simp only [QUEUE_BEGIN]
          omega
        · simp only [QUEUE_BEGIN, QUEUE_END, QUEUE_CHUNK]
          omega
    have hne : QUEUE_BEGIN + (k + 1) * QUEUE_CHUNK ≠ QUEUE_BEGIN := by
      simp only [QUEUE_BEGIN, QUEUE_CHUNK]
      omega
    have hfull : full (⟨QUEUE_BEGIN + k * QUEUE_CHUNK, QUEUE_BEGIN, m⟩ : RingState) =
        some false := by
      simp [full, hnext, hne]
    refine ⟨writeChunk m (QUEUE_BEGIN + k * QUEUE_CHUNK)
      (readChunk m (QUEUE_BEGIN + k * QUEUE_CHUNK)), ?_⟩
    unfold enqueueIter
    rw [hm]
    simp [enqueue, hfull, okEnc, hnext]

/-- A full ring makes `enqueue` fail its `debug_assert!(!full())` before
touching the encoder: the outcome is the panic value for every closure. -/
theorem enqueue_none_of_full (st : RingState) (h : full st = some true)
    (α ε : Type) (f : List Nat → Except ε α × List Nat) :
    enqueue f st = none := by
  unfold enqueue
  rw [h]

/-- Claim C3: the ring has a capacity of 4096 chunks; after 4095 (= C − 1)
successful enqueues with no dequeue, `full()` returns true, and any further
enqueue is refused by the `debug_assert!(!full())` precondition check
(modelled as the panic value `none`) before the encoder closure is ever
invoked — the result does not depend on the closure, and no cursor
advance is reported. -/
theorem c3_full_after_capacity_minus_one :
    capacityChunks = 4096 ∧
    ∃ st, enqueueIter (capacityChunks - 1) initRing = some st ∧
      full st = some true ∧
      ∀ (α ε : Type) (f : List Nat → Except ε α × List Nat), enqueue f st = none := by
  have hcap : capacityChunks = 4096 := by rfl
  refine ⟨hcap, ?_⟩
  obtain ⟨m, hm⟩ := enqueueIter_cursors 4095 (by omega)
  have hnext : next (QUEUE_BEGIN + 4095 * QUEUE_CHUNK) = some QUEUE_BEGIN := by
    unfold next
    rw [if_pos]
    · rw [if_pos]
      simp only [QUEUE_BEGIN, QUEUE_END, QUEUE_CHUNK]
      omega
    · refine ⟨?_, ?_, ?_⟩ <;> simp only [QUEUE_BEGIN, QUEUE_END, QUEUE_CHUNK] <;> omega
  have hfull : full (⟨QUEUE_BEGIN + 4095 * QUEUE_CHUNK, QUEUE_BEGIN, m⟩ : RingState) =
      some true := by
    simp [full, hnext]
  exact ⟨_, by rw [hcap]; exact hm, hfull, enqueue_none_of_full _ hfull⟩

/-- Claim C6: on any ring state passing the operation's precondition check
(`full() == false` for `enqueue`, `empty() == false` for `dequeue`), a
failing encoder/decoder closure has its error returned unchanged with both
cursors at their prior values, and a succeeding closure has its value
returned unchanged with exactly the corresponding cursor advanced by one
chunk (`next`) and the other cursor untouched. -/
theorem c6_closure_result_propagation (α ε : Type) (st : RingState)
    (f g : List Nat → Except ε α × List Nat) :
    (∀ e bs, full st = some false →
      f (readChunk st.mem st.send) = (.error e, bs) →
      enqueue f st = some (.error e, ⟨st.send, st.recv, writeChunk st.mem st.send bs⟩)) ∧
    (∀ x bs ns, full st = some false → next st.send = some ns →
      f (readChunk st.mem st.send) = (.ok x, bs) →
      enqueue f st = some (.ok x, ⟨ns, st.recv, writeChunk st.mem st.send bs⟩)) ∧
    (∀ e bs, empty st = false →
      g (readChunk st.mem st.recv) = (.error e, bs) →
      dequeue g st = some (.error e, ⟨st.send, st.recv, writeChunk st.mem st.recv bs⟩)) ∧
    (∀ x bs nr, empty st = false → next st.recv = some nr →
      g (readChunk st.mem st.recv) = (.ok x, bs) →
      dequeue g st = some (.ok x, ⟨st.send, nr, writeChunk st.mem st.recv bs⟩)) := by
  obtain ⟨s, r, m⟩ := st
  refine ⟨?_, ?_, ?_, ?_⟩
  · intro e bs hfull hf
    simp only [enqueue, hfull, hf]
  · intro x bs ns hfull hnext hf
    simp only [enqueue, hfull, hf, hnext]
  · intro e bs hempty hg
    simp only [dequeue, hempty, hg, Bool.false_eq_true, if_false]
  · intro x bs nr hempty hnext hg
    simp only [dequeue, hempty, hg, hnext, Bool.false_eq_true, if_false]

/-- Claim C6, witness: on the ring state with send one chunk past recv
(neither full nor empty), an always-failing encoder returns its error from
`enqueue` with both cursors unchanged, and an always-succeeding decoder
returns its value from `dequeue` with recv advanced one chunk. -/
theorem c6_closure_result_propagation_witness :
    enqueue (fun c => ((Except.error 3 : Except Nat Nat), c))
        (⟨0x44001000, 0x44000000, fun _ => 0⟩ : RingState) =
      some (.error 3, ⟨0x44001000, 0x44000000,
        writeChunk (fun _ => 0) 0x44001000 (readChunk (fun _ => 0) 0x44001000)⟩) ∧
    dequeue (fun c => ((Except.ok 5 : Except Nat Nat), c))
        (⟨0x44001000, 0x44000000, fun _ => 0⟩ : RingState) =
      some (.ok 5, ⟨0x44001000, 0x44001000,
        writeChunk (fun _ => 0) 0x44000000 (readChunk (fun _ => 0) 0x44000000)⟩) :=
  ⟨(c6_closure_result_propagation Nat Nat ⟨0x44001000, 0x44000000, fun _ => 0⟩
      (fun c => ((Except.error 3 : Except Nat Nat), c))
      (fun c => ((Except.ok 5 : Except Nat Nat), c))).1 3 _ (by decide) rfl,
   (c6_closure_result_propagation Nat Nat ⟨0x44001000, 0x44000000, fun _ => 0⟩
      (fun c => ((Except.error 3 : Except Nat Nat), c))
      (fun c => ((Except.ok 5 : Except Nat Nat), c))).2.2.2 5 _ 0x44001000
      (by decide) (by decide) rfl⟩

end RingQueueClaims

section EhClaims

open eh_artiq

set_option maxRecDepth 8000 in
/-- Claim C4, failing run: `copy_str` on the buffer produced by
`from_host` (cursor `usize::MAX`) panics — the slice
`buf[usize::MAX .. usize::MAX]` has its start beyond the buffer — instead
of truncating silently. -/
theorem c4_copy_str_from_host_panics :
    copy_str (from_host 0) [97] = none := by
  rfl

end EhClaims

namespace session_proto

open eh_artiq

/-- `from_str` of a message of at least 128 bytes fills the whole buffer:
cursor 128, buffer holding the first 128 input bytes. -/
theorem from_str_long (s : List Nat) (h : 128 ≤ s.length) :
    from_str s = some ⟨128, s.take 128⟩ := by
  have hbuf : (new : StringBuffer).buf.length = 128 := List.length_replicate ..
  have hpos : (new : StringBuffer).pos = 0 := rfl
  unfold from_str copy_str
  rw [hbuf, hpos]
  have hmin : min s.length (128 - 0) = 128 := by omega
  rw [hmin]
  rw [if_neg (by omega)]
  have htl : (s.take 128).length = 128 := by
    rw [List.length_take]
    omega
  have hsr : setRange (new : StringBuffer).buf 0 (s.take 128) = s.take 128 := by
    unfold setRange
    rw [htl]
    show List.take 0 _ ++ _ ++ List.drop (0 + 128) (List.replicate 128 0) = _
    rw [List.drop_replicate]
    simp
  rw [hsr]

/-- Claim C9: a message of 128 bytes or more makes `from_str` produce a
buffer with `is_host() = true`, which `write_exception_stringbuffer`
serializes as the host-key form — `0xFFFFFFFF` followed by the `u32`
packed from the message's first four bytes — rather than as inline text;
and `is_host` holds exactly when `pos >= 128`, for every buffer. -/
theorem c9_long_message_becomes_host (s : List Nat) (t : StringBuffer)
    (h : 128 ≤ s.length) :
    (from_str s).map
        (fun sb => (is_host sb, write_exception_stringbuffer sb)) =
      some (true, [.u32 USIZE_MAX,
        .u32 (leWord (s.getD 0 0) (s.getD 1 0) (s.getD 2 0) (s.getD 3 0))]) ∧
    (is_host t = true ↔ 128 ≤ t.pos) := by
  constructor
  · rw [from_str_long s h]
    simp only [Option.map_some']
    have hhost : is_host (⟨128, s.take 128⟩ : StringBuffer) = true := by
      simp [is_host]
    rw [hhost]
    have hg : ∀ j, j < 128 → (s.take 128).getD j 0 = s.getD j 0 := by
      intro j hj
      simp [List.getD_eq_getElem?_getD, List.getElem?_take, hj]
    unfold write_exception_stringbuffer
    rw [hhost, if_pos rfl]
    rw [hg 0 (by omega), hg 1 (by omega), hg 2 (by omega), hg 3 (by omega)]
  · simp [is_host]

/-- Claim C9, witness: a 128-byte message of letters `a` (97) is treated as
host-resident and serialized as a host key packed from its first four
bytes. -/
theorem c9_long_message_becomes_host_witness :
    128 ≤ (List.replicate 128 97 : List Nat).length ∧
    ((from_str (List.replicate 128 97)).map
        (fun sb => (is_host sb, write_exception_stringbuffer sb)) =
      some (true, [.u32 USIZE_MAX,
        .u32 (leWord ((List.replicate 128 97 : List Nat).getD 0 0)
          ((List.replicate 128 97 : List Nat).getD 1 0)
          ((List.replicate 128 97 : List Nat).getD 2 0)
          ((List.replicate 128 97 : List Nat).getD 3 0))]) ∧
     (is_host (⟨129, []⟩ : StringBuffer) = true ↔ 128 ≤ (129 : Nat))) :=
  ⟨by rw [List.length_replicate],
   c9_long_message_becomes_host (List.replicate 128 97) ⟨129, []⟩
     (by rw [List.length_replicate])⟩

/-- A span satisfying `spanOk` serializes to some item list. -/
theorem write_exception_string_isSome (s : ExcSlice) (h : spanOk s) :
    ∃ a, write_exception_string s = some a := by
  unfold write_exception_string
  rcases h with h | h
  · rw [if_pos h]
    exact ⟨_, rfl⟩
  · by_cases hl : s.len = USIZE_MAX
    · rw [if_pos hl]
      exact ⟨_, rfl⟩
    · rw [if_neg hl, if_pos h]
      exact ⟨_, rfl⟩

/-- If every exception entry is `some` with serializable spans, the
exception loop completes. -/
theorem writeExceptions_some (exc : List (Option Exception))
    (h : ∀ e ∈ exc, ∃ x, e = some x ∧ spanOk x.file ∧ spanOk x.function) :
    ∃ l, writeExceptions exc = some l := by
  induction exc with
  | nil => exact ⟨[], rfl⟩
  | cons hd tl ih =>
    obtain ⟨x, hx, hf, hfn⟩ := h hd (List.mem_cons_self _ _)
    subst hx
    obtain ⟨l, hl⟩ := ih (fun e he => h e (List.mem_cons_of_mem _ he))
    obtain ⟨a, ha⟩ := write_exception_string_isSome x.file hf
    obtain ⟨b, hb⟩ := write_exception_string_isSome x.function hfn
    refine ⟨[WItem.u32 (x.id % U32MOD)] ++ write_exception_stringbuffer x.message
      ++ a ++ [WItem.u32 x.line, WItem.u32 x.column] ++ b ++ l, ?_⟩
    unfold writeExceptions
    rw [ha, hb, hl]
    rfl

/-- A `None` entry anywhere in the exception slice makes the loop panic. -/
theorem writeExceptions_none_mem (exc : List (Option Exception)) (h : none ∈ exc) :
    writeExceptions exc = none := by
  induction exc with
  | nil => cases h
  | cons hd tl ih =>
    rcases List.mem_cons.mp h with h1 | h1
    · rw [← h1]
      rfl
    · cases hd with
      | none => rfl
      | some e =>
        unfold writeExceptions
        rw [ih h1]
        cases write_exception_string e.file <;>
          cases write_exception_string e.function <;> rfl

set_option maxRecDepth 8000 in
/-- Claim C10, counterexample: a `KernelException` reply in which every
exception entry IS `Some` can still fail to serialize — a non-host file
span with invalid UTF-8 makes `write_exception_string`'s
`from_utf8(..).unwrap()` panic — so all-`Some` alone does not make
`write_to` complete. -/
theorem c10_all_some_but_panics :
    (∀ e ∈ ([some ⟨0, ⟨0, 1, [255]⟩, 0, 0, ⟨0, USIZE_MAX, []⟩, eh_artiq.new⟩] :
        List (Option Exception)), e.isSome) ∧
    Reply.write_to (.kernelException
      [some ⟨0, ⟨0, 1, [255]⟩, 0, 0, ⟨0, USIZE_MAX, []⟩, eh_artiq.new⟩] [] [] 0) = none := by
  decide

/-- Claim C10 as amended: `write_to` on a `KernelException` reply completes
when every exception entry is `Some` AND each of its file/function spans is
host-resident or valid UTF-8; and a `None` entry always makes `write_to`
panic (modelled as `none`) rather than return an error. -/
theorem c10_unwrap_behavior (exc : List (Option Exception))
    (sps : List StackPointerBacktrace) (bt : List (Nat × Nat)) (ae : Nat) :
    ((∀ e ∈ exc, ∃ x, e = some x ∧ spanOk x.file ∧ spanOk x.function) →
      ∃ l, Reply.write_to (.kernelException exc sps bt ae) = some l) ∧
    (none ∈ exc → Reply.write_to (.kernelException exc sps bt ae) = none) := by
  constructor
  · intro h
    obtain ⟨l, hl⟩ := writeExceptions_some exc h
    refine ⟨actualKernelExceptionItems exc l sps bt ae, ?_⟩
    simp only [Reply.write_to]
    rw [hl]
    rfl
  · intro h
    simp only [Reply.write_to]
    rw [writeExceptions_none_mem exc h]
    rfl

/-- Claim C10, witness: one all-`Some` reply with host-resident spans
serializes; one reply holding a `None` entry panics. -/
theorem c10_unwrap_behavior_witness :
    (∃ l, Reply.write_to (.kernelException
        [some ⟨0, ⟨0, USIZE_MAX, []⟩, 0, 0, ⟨0, USIZE_MAX, []⟩, eh_artiq.new⟩] [] [] 0) =
      some l) ∧
    Reply.write_to (.kernelException [none] [] [] 0) = none :=
  ⟨(c10_unwrap_behavior
      [some ⟨0, ⟨0, USIZE_MAX, []⟩, 0, 0, ⟨0, USIZE_MAX, []⟩, eh_artiq.new⟩] [] [] 0).1
      (fun _e he => ⟨⟨0, ⟨0, USIZE_MAX, []⟩, 0, 0, ⟨0, USIZE_MAX, []⟩, eh_artiq.new⟩,
        List.mem_singleton.mp he, Or.inl rfl, Or.inl rfl⟩),
   (c10_unwrap_behavior [none] [] [] 0).2 (List.mem_singleton.mpr rfl)⟩

/-- Claim C1, counterexample: for the `KernelException` reply with no
exceptions, one stack-pointer triple and no backtrace pairs, `write_to`
emits the triple immediately after the exception array — there is NO
32-bit element count before the `stack_pointers` entries — so the
serialized trace differs from the claimed count-prefixed layout. -/
theorem c1_stack_pointer_count_not_emitted :
    writeExceptions [] = some [] ∧
    Reply.write_to (.kernelException [] [⟨1, 2, 3⟩] [] 0) =
      some (actualKernelExceptionItems [] [] [⟨1, 2, 3⟩] [] 0) ∧
    Reply.write_to (.kernelException [] [⟨1, 2, 3⟩] [] 0) ≠
      some (claimedKernelExceptionItems [] [] [⟨1, 2, 3⟩] [] 0) := by
  decide

/-- Claim C1 as amended: whenever the exception loop serializes to
`excI`, `write_to` on a `KernelException` reply emits the sync marker, tag
byte 9, the count-prefixed exception array, then the stack-pointer
backtrace triples WITHOUT a preceding element count, then the
count-prefixed (address, stack-pointer) pairs, then the async-error count
byte. -/
theorem c1_kernel_exception_layout (exc : List (Option Exception))
    (excI : List WItem) (sps : List StackPointerBacktrace)
    (bt : List (Nat × Nat)) (ae : Nat)
    (h : writeExceptions exc = some excI) :
    Reply.write_to (.kernelException exc sps bt ae) =
      some (actualKernelExceptionItems exc excI sps bt ae) := by
  simp only [Reply.write_to]
  rw [h]
  rfl

/-- Claim C1, witness: the amended layout at a concrete reply with one
triple and one pair. -/
theorem c1_kernel_exception_layout_witness :
    writeExceptions [] = some [] ∧
    Reply.write_to (.kernelException [] [⟨7, 8, 9⟩] [(1, 2)] 5) =
      some (actualKernelExceptionItems [] [] [⟨7, 8, 9⟩] [(1, 2)] 5) :=
  ⟨rfl, c1_kernel_exception_layout [] [] [⟨7, 8, 9⟩] [(1, 2)] 5 rfl⟩

/-- The all-0x5a window reads 0x5a at every slot. -/
theorem slot_const (c : Nat) (j : Nat) : slot (c, c, c, c) j = c := by
  rcases j with _ | _ | _ | j <;> rfl

/-- Storing `b` at slot `i % 4` changes exactly that slot. -/
theorem slot_updSync (s : Nat × Nat × Nat × Nat) (i b j : Nat) (hj : j < 4) :
    slot (updSync s i b) j = if j = i % 4 then b else slot s j := by
  obtain ⟨s0, s1, s2, s3⟩ := s
  have hi : i % 4 = 0 ∨ i % 4 = 1 ∨ i % 4 = 2 ∨ i % 4 = 3 := by omega
  have hjc : j = 0 ∨ j = 1 ∨ j = 2 ∨ j = 3 := by omega
  rcases hi with hi | hi | hi | hi <;> rcases hjc with hjc | hjc | hjc | hjc <;>
    subst hjc <;> simp [updSync, slot, hi]

/-- The sync-window invariant is preserved by one scan step. -/
theorem syncInv_step (s : Nat × Nat × Nat × Nat) (i t b : Nat) (h : SyncInv s i t) :
    SyncInv (updSync s i b) (i + 1) (if b = 90 then t + 1 else 0) := by
  obtain ⟨h1, h2, h3⟩ := h
  by_cases hb : b = 90
  · subst hb
    rw [if_pos rfl]
    refine ⟨by omega, ?_, ?_⟩
    · intro d hd1 hd2
      rw [slot_updSync s i 90 _ (by omega)]
      by_cases hd : d = 1
      · subst hd
        have he : (i + 1 + 4 - 1) % 4 = i % 4 := by omega
        rw [he, if_pos rfl]
      · have hne : (i + 1 + 4 - d) % 4 ≠ i % 4 := by omega
        rw [if_neg hne]
        have he : (i + 1 + 4 - d) % 4 = (i + 4 - (d - 1)) % 4 := by omega
        rw [he]
        exact h2 (d - 1) (by omega) (by omega)
    · intro ht
      rw [slot_updSync s i 90 _ (by omega)]
      have hne : (i + 1 + 4 - (t + 1 + 1)) % 4 ≠ i % 4 := by omega
      rw [if_neg hne]
      have he : (i + 1 + 4 - (t + 1 + 1)) % 4 = (i + 4 - (t + 1)) % 4 := by omega
      rw [he]
      exact h3 (by omega)
  · rw [if_neg hb]
    refine ⟨by omega, ?_, ?_⟩
    · intro d hd1 hd2
      omega
    · intro _
      rw [slot_updSync s i b _ (by omega)]
      have he : (i + 1 + 4 - (0 + 1)) % 4 = i % 4 := by omega
      rw [he, if_pos rfl]
      exact hb

/-- Under the invariant, the window is all-0x5a exactly when the trailing
run has reached 4. -/
theorem syncInv_stop (s : Nat × Nat × Nat × Nat) (i t : Nat) (h : SyncInv s i t) :
    s = (90, 90, 90, 90) ↔ 4 ≤ t := by
  obtain ⟨h1, h2, h3⟩ := h
  constructor
  · intro hs
    by_contra hlt
    exact h3 (by omega) (hs ▸ slot_const 90 _)
  · intro h4
    obtain ⟨s0, s1, s2, s3⟩ := s
    have f1 := h2 1 (by omega) (by omega)
    have f2 := h2 2 (by omega) (by omega)
    have f3 := h2 3 (by omega) (by omega)
    have f4 := h2 4 (by omega) (by omega)
    have hi : i % 4 = 0 ∨ i % 4 = 1 ∨ i % 4 = 2 ∨ i % 4 = 3 := by omega
    rcases hi with hi | hi | hi | hi <;>
      [skip; skip; skip; skip] <;>
      · have e1 : (i + 4 - 1) % 4 = (i + 3) % 4 := by omega
        have e2 : (i + 4 - 2) % 4 = (i + 2) % 4 := by omega
        have e3 : (i + 4 - 3) % 4 = (i + 1) % 4 := by omega
        have e4 : (i + 4 - 4) % 4 = i % 4 := by omega
        rw [e1] at f1
        rw [e2] at f2
        rw [e3] at f3
        rw [e4] at f4
        have g1 : (i + 3) % 4 = (i % 4 + 3) % 4 := by omega
        have g2 : (i + 2) % 4 = (i % 4 + 2) % 4 := by omega
        have g3 : (i + 1) % 4 = (i % 4 + 1) % 4 := by omega
        rw [g1, hi] at f1
        rw [g2, hi] at f2
        rw [g3, hi] at f3
        rw [hi] at f4
        simp [slot] at f1 f2 f3 f4
        simp [f1, f2, f3, f4]

/-- The faithful array machine of `read_sync` agrees with the trailing-run
machine on every stream, from any invariant-related pair of states. -/
theorem readSyncAux_eq_syncRun (l : List Nat) :
    ∀ s i t, SyncInv s i t → readSyncAux s i l = syncRun t l := by
  induction l with
  | nil => intro s i t _; rfl
  | cons b rest ih =>
    intro s i t h
    have hstep := syncInv_step s i t b h
    by_cases hstop : 4 ≤ (if b = 90 then t + 1 else 0)
    · have heq : updSync s i b = (90, 90, 90, 90) :=
        (syncInv_stop _ _ _ hstep).mpr hstop
      simp [readSyncAux, syncRun, heq, hstop]
    · have hne : updSync s i b ≠ (90, 90, 90, 90) :=
        fun hc => hstop ((syncInv_stop _ _ _ hstep).mp hc)
      simp only [readSyncAux, syncRun]
      rw [if_neg hne, if_neg hstop]
      exact ih _ _ _ hstep

/-- The initial state of `read_sync` satisfies the invariant with run 0. -/
theorem syncInv_start : SyncInv (0, 0, 0, 0) 0 0 := by
  refine ⟨le_refl 0, ?_, ?_⟩
  · intro d hd1 hd2
    omega
  · intro _
    show slot (0, 0, 0, 0) ((0 + 4 - 1) % 4) ≠ 90
    have h3 : (0 + 4 - 1) % 4 = 3 := by omega
    rw [h3]
    simp [slot]

/-- `read_sync` equals the trailing-run machine started at run 0. -/
theorem read_sync_eq_syncRun (l : List Nat) : read_sync l = syncRun 0 l :=
  readSyncAux_eq_syncRun l (0, 0, 0, 0) 0 0 syncInv_start

/-- A scan that never completes a run of four inside `g` consumes all of
`g`, carrying the trailing run across. -/
theorem syncRun_append (g : List Nat) :
    ∀ t l, noStop t g = true → syncRun t (g ++ l) = syncRun (trailRun t g) l := by
  induction g with
  | nil => intro t l _; rfl
  | cons b g ih =>
    intro t l h
    simp only [noStop, Bool.and_eq_true, decide_eq_true_eq] at h
    simp only [List.cons_append, syncRun, trailRun]
    rw [if_neg (by omega)]
    exact ih _ l h.2

/-- Claim C8 as amended: when the garbage prefix never contains four
consecutive 0x5a bytes and does not end with a trailing 0x5a run (so the
first four-in-a-row of 0x5a ends exactly at the marker's last byte),
`read_sync` consumes exactly the garbage plus the 4-byte marker and
returns success, leaving the stream at the request's tag byte. -/
theorem c8_read_sync_recovers (g rest : List Nat)
    (h1 : noStop 0 g = true) (h2 : trailRun 0 g = 0) :
    read_sync (g ++ ([90, 90, 90, 90] ++ rest)) = some rest := by
  rw [read_sync_eq_syncRun, syncRun_append g 0 _ h1, h2]
  rfl

/-- Claim C8, witness: garbage `[1, 2, 0x5a, 3]` followed by the marker and
the tag byte 3 is consumed exactly. -/
theorem c8_read_sync_recovers_witness :
    (noStop 0 [1, 2, 90, 3] = true ∧ trailRun 0 [1, 2, 90, 3] = 0) ∧
    read_sync ([1, 2, 90, 3] ++ ([90, 90, 90, 90] ++ [3])) = some [3] :=
  ⟨⟨by decide, by decide⟩, c8_read_sync_recovers [1, 2, 90, 3] [3] (by decide) (by decide)⟩

/-- Claim C8, counterexample: with the garbage prefix `[0x5a]` before the
marker and a request with tag byte 3, the scan completes one byte early —
the returned remainder still starts with 0x5a, not the tag byte — so
`read_sync` does not consume exactly garbage-plus-marker for every
garbage prefix. -/
theorem c8_early_stop_on_trailing_sync_byte :
    read_sync ([90] ++ ([90, 90, 90, 90] ++ [3])) = some [90, 3] ∧
    ([90, 3] : List Nat) ≠ [3] := by
  decide

end session_proto
